import Mathlib

/-!
Verification of the kubernetes registry plugin (registry/kubernetes):
a shallow embedding of `watcher.go` (the `kregistry` registry operations,
the selector codec, and the secret watcher) together with proofs about
the embedded operations.

Go strings are modelled as lists of bytes (`List Nat`, each entry < 256),
since the sanitizer `serviceName` operates on `[]byte(name)`.  JSON
serialization is modelled abstractly: a stored value is either the
encoding of a service (`Payload.svc s`, produced by `json.Marshal`) or
malformed bytes (`Payload.malformed`); `json.Unmarshal` succeeds exactly
on the former.  The kubernetes secret store itself is an external
collaborator (its HTTP client lives outside this package), so its
list/put/delete semantics are modelled from the spec where needed.
-/

namespace Kreg

/-- Bytes of an ASCII Lean string, to write byte-string constants readably. -/
def bytes (s : String) : List Nat := s.toList.map Char.toNat

/-- Byte-string back to a Lean string (used only to build error messages). -/
def ofBytes (l : List Nat) : String := String.mk (l.map Char.ofNat)

/-- The single-quote character, used in the `GetService` error message. -/
def sq : String := String.mk [Char.ofNat 39]

/-- Source constant `svcSelectorPrefix = "micro.mu/selector-"`. -/
def svcSelectorPre : List Nat := bytes "micro.mu/selector-"

/-- Source constant `svcSelectorValue = "service"`. -/
def svcSelectorValue : List Nat := bytes "service"

/-- Source constant `labelTypeKey = "micro.mu/type"`. -/
def labelTypeKey : List Nat := bytes "micro.mu/type"

/-- Source constant `labelTypeValueService = "service"`. -/
def labelTypeValueService : List Nat := bytes "service"

/-- Source constant `dataServiceKeyPrefix = "micro.mu/service-"` (the
annotation/payload key prefix). -/
def dataServiceKeyPre : List Nat := bytes "micro.mu/service-"

/-- Single-byte membership test of the POSIX character class
`[-A-Za-z0-9_.]` (source regexp `labelRe`): dash, upper and lower ASCII
letters, digits, underscore, dot. -/
def isLabelByte (b : Nat) : Bool :=
  b = 45 || (65 ≤ b && b ≤ 90) || (97 ≤ b && b ≤ 122) ||
  (48 ≤ b && b ≤ 57) || b = 95 || b = 46

/-- Source `serviceName`: walks the bytes of the name and replaces every
byte that does not match `labelRe` with an underscore (byte 95). -/
def serviceName : List Nat → List Nat
  | [] => []
  | b :: rest => (if isLabelByte b then b else 95) :: serviceName rest

/-- A node of a service (`registry.Node`); its fields are inert here. -/
structure Node where
  id : String
  address : String
  port : Nat
  metadata : List (String × String)
deriving DecidableEq

/-- A service record (`registry.Service`); the name is a byte string since
the registry sanitizes it byte-wise. -/
structure Service where
  name : List Nat
  version : String
  nodes : List Node
  metadata : List (String × String)
deriving DecidableEq

/-- Abstract JSON value stored in a secret: either `json.Marshal` of a
service, or bytes that do not decode as a service. -/
inductive Payload where
  | svc (s : Service)
  | malformed
deriving DecidableEq

/-- `json.Unmarshal` into a `registry.Service`: succeeds exactly on
payloads produced by `json.Marshal`. -/
def decodePayload : Payload → Option Service
  | .svc s => some s
  | .malformed => none

/-- Association-list lookup, modelling Go map indexing `m[k]`. -/
def alookup {α β : Type} [DecidableEq α] : List (α × β) → α → Option β
  | [], _ => none
  | (k, v) :: rest, key => if k = key then some v else alookup rest key

/-- Secret metadata (`client.Meta`): name, labels, annotations.  Label
values are written through non-nil pointers by this package, so they are
modelled as plain values; annotation values are nilable (`Option`). -/
structure Meta where
  name : String
  labels : List (List Nat × List Nat)
  annotations : List (List Nat × Option Payload)
deriving DecidableEq

/-- A kubernetes secret (`client.Secret`): optional metadata (a nilable
pointer in Go) and the data map (the payload of the spec's
BackingRecord). -/
structure Secret where
  metadata : Option Meta
  data : List (List Nat × Payload)
deriving DecidableEq

/-- Labels of a secret; a nil metadata pointer carries no labels. -/
def secretLabels (s : Secret) : List (List Nat × List Nat) :=
  match s.metadata with
  | some m => m.labels
  | none => []

/-- Errors surfaced by the registry: Go `errors.New`-style messages, the
`registry.ErrNotFound` sentinel, and a marker for a nil-pointer
dereference (a Go runtime panic, reachable in `ListServices`). -/
inductive RegErr where
  | goError (msg : String)
  | notFound
  | nilDeref
deriving DecidableEq

/-- The secret store, keyed by secret name (the pod name). -/
abbrev Store : Type := List (String × Secret)

/-- A write issued to the store client. -/
inductive StoreCall where
  | createSecret (name : String) (s : Secret)
  | deleteSecret (name : String)
deriving DecidableEq

/-- Modelled from the spec: a label selector matches a record when the
record's labels contain every key/value pair of the selector (the
store client sends the selector to the control plane, which filters
this way; the filtering code is not part of this package). -/
def matchesSelector (labels : List (List Nat × List Nat))
    (sel : List (List Nat × List Nat)) : Bool :=
  sel.all (fun kv => alookup labels kv.1 = some kv.2)

/-- Modelled from the spec: `ListSecrets`/`ListRecords` returns the
records whose labels match the selector. -/
def listSecrets (st : Store) (sel : List (List Nat × List Nat)) : List Secret :=
  (st.map Prod.snd).filter (fun s => matchesSelector (secretLabels s) sel)

/-- Modelled from the spec: the store's create/put operation keyed by id
overwrites the record stored under that id, if any. -/
def upsert : Store → String → Secret → Store
  | [], k, s => [(k, s)]
  | (k', s') :: rest, k, s =>
      if k' = k then (k, s) :: rest else (k', s') :: upsert rest k s

/-- Modelled from the spec: the store's delete operation removes the
record stored under the id. -/
def deleteKey (st : Store) (k : String) : Store :=
  st.filter (fun kv => ¬ kv.1 = k)

/-- Apply one store write. -/
def applyCall (st : Store) : StoreCall → Store
  | .createSecret n s => upsert st n s
  | .deleteSecret n => deleteKey st n

/-- Apply a sequence of store writes in order. -/
def applyCalls (st : Store) (cs : List StoreCall) : Store :=
  cs.foldl applyCall st

/-- The secret built by `Register` for service `s` when the process
instance id (pod name, from `$HOSTNAME`) is `podName`: the type label,
the per-service selector label, and one data entry holding the
JSON-encoded service under the sanitized service key.  No annotations
are set. -/
def registerSecret (s : Service) (podName : String) : Secret :=
  { metadata := some
      { name := podName
      , labels :=
          [ (labelTypeKey, labelTypeValueService)
          , (svcSelectorPre ++ serviceName s.name, svcSelectorValue) ]
      , annotations := [] }
  , data := [(dataServiceKeyPre ++ serviceName s.name, Payload.svc s)] }

/-- Source `kregistry.Register`, as the store writes it performs: fails
when the service has no nodes, otherwise issues exactly one
`CreateSecret` keyed by the pod name. -/
def register (s : Service) (podName : String) : Except RegErr (List StoreCall) :=
  if s.nodes = [] then .error (.goError "you must register at least one node")
  else .ok [.createSecret podName (registerSecret s podName)]

/-- Source `kregistry.Deregister`, as the store writes it performs: fails
when the service has no nodes, otherwise issues exactly one
`DeleteSecret` keyed by the pod name. -/
def deregister (s : Service) (podName : String) : Except RegErr (List StoreCall) :=
  if s.nodes = [] then .error (.goError "you must deregister at least one node")
  else .ok [.deleteSecret podName]

/-- The store writes an operation performed (none when it failed before
reaching the store). -/
def callsOf (r : Except RegErr (List StoreCall)) : List StoreCall :=
  match r with
  | .ok cs => cs
  | .error _ => []

/-- The store after running `Register` against `st`. -/
def registerStore (st : Store) (s : Service) (podName : String) : Store :=
  applyCalls st (callsOf (register s podName))

/-- The per-service selector used by `GetService` and by a filtered
watch: `svcSelectorPrefix + serviceName(name) = svcSelectorValue`. -/
def perServiceSelector (name : List Nat) : List (List Nat × List Nat) :=
  [(svcSelectorPre ++ serviceName name, svcSelectorValue)]

/-- The global selector (source `secretSelector`): `micro.mu/type = service`. -/
def secretSelector : List (List Nat × List Nat) :=
  [(labelTypeKey, labelTypeValueService)]

/-- The error message `GetService` returns when a data entry does not
unmarshal (`fmt.Errorf("could not unmarshal service '%s' from pod
annotation", name)` in the source). -/
def unmarshalMsg (name : List Nat) : String :=
  "could not unmarshal service " ++ sq ++ ofBytes name ++ sq ++
  " from pod annotation"

/-- The loop of source `kregistry.GetService` over the listed secrets:
a secret without a data entry at the sanitized key is skipped; a data
entry that fails to unmarshal aborts the whole call with the unmarshal
error; otherwise the decoded service is appended. -/
def getServiceItems (name : List Nat) : List Secret → Except RegErr (List Service)
  | [] => .ok []
  | sec :: rest =>
      match alookup sec.data (dataServiceKeyPre ++ serviceName name) with
      | none => getServiceItems name rest
      | some p =>
          match decodePayload p with
          | none => .error (.goError (unmarshalMsg name))
          | some svc => (getServiceItems name rest).map (fun l => svc :: l)

/-- Source `kregistry.GetService`: lists secrets by the per-service
selector, fails with `registry.ErrNotFound` when none match, then runs
the decoding loop. -/
def getService (st : Store) (name : List Nat) : Except RegErr (List Service) :=
  let items := listSecrets st (perServiceSelector name)
  if items = [] then .error .notFound
  else getServiceItems name items

/-- Insertion into the name set of `ListServices` (`svcs[svc.Name] = true`
in the source): keeps one occurrence per name. -/
def insertName (names : List (List Nat)) (n : List Nat) : List (List Nat) :=
  if n ∈ names then names else names ++ [n]

/-- Byte-string prefix test (`strings.HasPrefix`). -/
def hasPre : List Nat → List Nat → Bool
  | [], _ => true
  | _ :: _, [] => false
  | a :: pa, b :: pb => a = b && hasPre pa pb

/-- The inner loop of source `kregistry.ListServices` over one secret's
annotations: keys without the service key prefix are skipped; a nil
annotation value is dereferenced without a check in the source (a
runtime nil-pointer fault, modelled as `RegErr.nilDeref`); a value that
fails to unmarshal is skipped; otherwise the decoded service's name is
added to the set. -/
def scanAnns : List (List Nat × Option Payload) → List (List Nat) →
    Except RegErr (List (List Nat))
  | [], names => .ok names
  | (k, v) :: rest, names =>
      if hasPre dataServiceKeyPre k then
        match v with
        | none => .error .nilDeref
        | some p =>
            match decodePayload p with
            | none => scanAnns rest names
            | some svc => scanAnns rest (insertName names svc.name)
      else scanAnns rest names

/-- The outer loop of source `kregistry.ListServices` over the listed
secrets; the source reads `secret.Metadata.Annotations` without a nil
check, so a secret with nil metadata is a nil-pointer fault. -/
def listServicesItems : List Secret → List (List Nat) →
    Except RegErr (List (List Nat))
  | [], names => .ok names
  | sec :: rest, names =>
      match sec.metadata with
      | none => .error .nilDeref
      | some m =>
          match scanAnns m.annotations names with
          | .error e => .error e
          | .ok names2 => listServicesItems rest names2

/-- Source `kregistry.ListServices`: lists secrets with the global
selector, collects the distinct service names found in their
annotations, and returns one skeletal record per name. -/
def listServices (st : Store) : Except RegErr (List Service) :=
  (listServicesItems (listSecrets st secretSelector) []).map
    (fun names => names.map
      (fun n => { name := n, version := "", nodes := [], metadata := [] }))

/-- A watch result (`registry.Result`): an action string and a service. -/
structure RResult where
  action : String
  service : Service
deriving DecidableEq

/-- The kinds of raw watch notifications (`watch.Added` etc.). -/
inductive WEventType where
  | added
  | modified
  | deleted
deriving DecidableEq

/-- The object carried by a raw watch notification (`event.Object`, a
JSON string): either a secret or bytes that fail to unmarshal. -/
inductive ObjPayload where
  | sec (s : Secret)
  | malformed
deriving DecidableEq

/-- A raw watch notification (`watch.Event`). -/
structure WEvent where
  type : WEventType
  object : ObjPayload
deriving DecidableEq

/-- The loop of source `k8sWatcher.buildSecretResults` over a secret's
annotations: keys without the service key prefix are skipped, nil
values are skipped, values that fail to unmarshal are skipped, and each
remaining value yields one result with the given action. -/
def buildAnnResults (action : String) :
    List (List Nat × Option Payload) → List RResult
  | [] => []
  | (ak, av) :: rest =>
      if hasPre dataServiceKeyPre ak then
        match av with
        | none => buildAnnResults action rest
        | some p =>
            match decodePayload p with
            | none => buildAnnResults action rest
            | some svc => { action := action, service := svc } ::
                buildAnnResults action rest
      else buildAnnResults action rest

/-- Source `k8sWatcher.buildSecretResults`: no results when the secret's
metadata is nil, else the annotation loop. -/
def buildSecretResults (secret : Secret) (action : String) : List RResult :=
  match secret.metadata with
  | none => []
  | some m => buildAnnResults action m.annotations

/-- Source `k8sWatcher.handleEvent`, as the list of results it sends on
the delivery channel: an object that fails to unmarshal as a secret is
logged and dropped; `Added` maps to action `"create"`, `Deleted` to
`"delete"`, and any other kind yields nothing. -/
def handleEvent (e : WEvent) : List RResult :=
  match e.object with
  | .malformed => []
  | .sec secret =>
      match e.type with
      | .added => buildSecretResults secret "create"
      | .deleted => buildSecretResults secret "delete"
      | .modified => []

/-! ### Claim-side view of watch decoding

Stated from the spec's words, to be compared with the source-side
`handleEvent`. -/

/-- The action the spec assigns to a notification kind: `Add` maps to
`"create"`, `Delete` to `"delete"`, any other kind yields no events. -/
def actionOf : WEventType → Option String
  | .added => some "create"
  | .deleted => some "delete"
  | .modified => none

/-- Annotations of a secret (none when its metadata is nil). -/
def secretAnns (s : Secret) : List (List Nat × Option Payload) :=
  match s.metadata with
  | some m => m.annotations
  | none => []

/-- One event per annotation entry, when its key carries the service key
prefix, its value is non-null, and the value decodes as a service;
otherwise no event for that entry. -/
def claimResultOf (act : String) (kv : List Nat × Option Payload) :
    Option RResult :=
  match kv.2 with
  | some p =>
      if hasPre dataServiceKeyPre kv.1 then
        (decodePayload p).map (fun svc => { action := act, service := svc })
      else none
  | none => none

/-- Stated from the spec: the events a raw notification yields — for a
kind with an action, one event per qualifying annotation entry, each
entry judged independently; for any other kind or an undecodable
object, none. -/
def claimEvents (e : WEvent) : List RResult :=
  match e.object, actionOf e.type with
  | .sec s, some act => (secretAnns s).filterMap (claimResultOf act)
  | _, _ => []

/-! ### The `Stop`/`Next` channel protocol

`k8sWatcher.Stop` first stops the upstream watch (which does not touch
the delivery channel), then runs a non-blocking select over `k.next`:
if a receive is ready it returns, otherwise it closes the channel.  The
forwarding goroutine calls `k.Stop()` itself when the upstream result
channel closes, so two executions of `Stop` can run concurrently.  Each
execution is modelled as two atomic steps — the select's readiness
check, then the branch body — because Go's select commits to `default`
before the subsequent `close` runs.  The delivery channel is unbuffered
and, in the modelled scenarios, no sender is pending, so a receive is
ready exactly when the channel is closed. -/

/-- State of the unbuffered delivery channel. -/
inductive ChanSt where
  | chOpen
  | chClosed
deriving DecidableEq

/-- Program counter of one execution of `Stop`: before the select, after
committing to the `default` branch, and returned. -/
inductive Pc where
  | start
  | willClose
  | done
deriving DecidableEq

/-- The shared state of two racing `Stop` executions: the channel, how
many `close` operations ran, whether a close-of-closed-channel runtime
fault occurred, and each execution's program counter. -/
structure StopSys where
  ch : ChanSt
  closes : Nat
  fault : Bool
  pc1 : Pc
  pc2 : Pc
deriving DecidableEq

/-- Result of one task step. -/
structure TaskOut where
  ch : ChanSt
  closes : Nat
  fault : Bool
  pc : Pc

/-- One atomic step of one `Stop` execution.  At `start`, the select
finds a receive ready only on a closed channel (then `Stop` returns);
on an open channel it commits to `default`.  At `willClose`, it runs
`close(k.next)`: on an open channel this closes it; on a channel closed
meanwhile it is a close of a closed channel — a runtime fault. -/
def stopStep (ch : ChanSt) (closes : Nat) (fault : Bool) : Pc → TaskOut
  | .start =>
      match ch with
      | .chClosed => { ch := ch, closes := closes, fault := fault, pc := .done }
      | .chOpen => { ch := ch, closes := closes, fault := fault, pc := .willClose }
  | .willClose =>
      match ch with
      | .chOpen =>
          { ch := .chClosed, closes := closes + 1, fault := fault, pc := .done }
      | .chClosed =>
          { ch := .chClosed, closes := closes + 1, fault := true, pc := .done }
  | .done => { ch := ch, closes := closes, fault := fault, pc := .done }

/-- Step the system by running one step of task 1 (`true`) or task 2
(`false`). -/
def stepSys (s : StopSys) (t : Bool) : StopSys :=
  if t then
    let o := stopStep s.ch s.closes s.fault s.pc1
    { ch := o.ch, closes := o.closes, fault := o.fault, pc1 := o.pc, pc2 := s.pc2 }
  else
    let o := stopStep s.ch s.closes s.fault s.pc2
    { ch := o.ch, closes := o.closes, fault := o.fault, pc1 := s.pc1, pc2 := o.pc }

/-- Both `Stop` executions about to run against the open channel. -/
def initSys : StopSys :=
  { ch := .chOpen, closes := 0, fault := false, pc1 := .start, pc2 := .start }

/-- Run a schedule (an interleaving of the two tasks' steps). -/
def runSched (l : List Bool) : StopSys := l.foldl stepSys initSys

/-- Source `k8sWatcher.Next` as a channel receive: a pending value is
returned; with no pending value, a receive on a closed channel yields
`ok = false` at once, and `Next` returns the `result chan closed`
error; on an open channel the receive blocks (`none`). -/
def nextRecv (pending : Option RResult) (ch : ChanSt) :
    Option (Except RegErr RResult) :=
  match pending with
  | some r => some (.ok r)
  | none =>
      match ch with
      | .chClosed => some (.error (.goError "result chan closed"))
      | .chOpen => none

/-! ### Supporting lemmas -/

theorem serviceName_length (x : List Nat) : (serviceName x).length = x.length := by
  induction x with
  | nil => rfl
  | cons b rest ih => simp [serviceName, ih]

theorem serviceName_getD : ∀ (x : List Nat) (i : Nat), i < x.length →
    (serviceName x).getD i 0 =
      (if isLabelByte (x.getD i 0) then x.getD i 0 else 95)
  | [], i, h => by simp at h
  | b :: rest, 0, _ => by simp [serviceName]
  | b :: rest, i + 1, h => by
      simpa [serviceName] using serviceName_getD rest i (by simpa using h)

theorem serviceName_idem (x : List Nat) :
    serviceName (serviceName x) = serviceName x := by
  induction x with
  | nil => rfl
  | cons b rest ih =>
      by_cases hb : isLabelByte b
      · simp [serviceName, hb, ih]
      · have h95 : isLabelByte 95 = true := by decide
        simp [serviceName, hb, ih, h95]

theorem upsert_mem_self : ∀ (st : Store) (k : String) (s : Secret),
    (k, s) ∈ upsert st k s
  | [], k, s => by simp [upsert]
  | (k', s') :: rest, k, s => by
      by_cases hk : k' = k
      · simp [upsert, hk]
      · simp only [upsert, if_neg hk, List.mem_cons]
        exact Or.inr (upsert_mem_self rest k s)

theorem upsert_subset : ∀ (st : Store) (k : String) (s : Secret)
    (x : String × Secret), x ∈ upsert st k s → x = (k, s) ∨ x ∈ st
  | [], k, s, x, h => Or.inl (by simpa [upsert] using h)
  | (k', s') :: rest, k, s, x, h => by
      by_cases hk : k' = k
      · simp only [upsert, if_pos hk, List.mem_cons] at h
        rcases h with h | h
        · exact Or.inl h
        · exact Or.inr (List.mem_cons_of_mem _ h)
      · simp only [upsert, if_neg hk, List.mem_cons] at h
        rcases h with h | h
        · exact Or.inr (by simp [h])
        · rcases upsert_subset rest k s x h with h' | h'
          · exact Or.inl h'
          · exact Or.inr (List.mem_cons_of_mem _ h')

theorem labelTypeKey_ne_selKey (x : List Nat) :
    labelTypeKey ≠ svcSelectorPre ++ x := by
  intro h
  have hlen : labelTypeKey.length = (svcSelectorPre ++ x).length :=
    congrArg List.length h
  rw [List.length_append] at hlen
  have h1 : labelTypeKey.length = 13 := rfl
  have h2 : svcSelectorPre.length = 18 := rfl
  omega

theorem registerSecret_matches (s : Service) (podName : String) :
    matchesSelector (secretLabels (registerSecret s podName))
      (perServiceSelector s.name) = true := by
  simp [matchesSelector, secretLabels, registerSecret, perServiceSelector,
    alookup, labelTypeKey_ne_selKey (serviceName s.name)]

theorem getServiceItems_ne_notFound (name : List Nat) :
    ∀ items : List Secret, getServiceItems name items ≠ .error .notFound
  | [] => by simp [getServiceItems]
  | sec :: rest => by
      cases hl : alookup sec.data (dataServiceKeyPre ++ serviceName name) with
      | none =>
          simpa [getServiceItems, hl] using getServiceItems_ne_notFound name rest
      | some p =>
          cases p with
          | malformed => simp [getServiceItems, hl, decodePayload]
          | svc v =>
              have ih := getServiceItems_ne_notFound name rest
              cases hr : getServiceItems name rest with
              | ok l => simp [getServiceItems, hl, decodePayload, hr, Except.map]
              | error e =>
                  simp only [getServiceItems, hl, decodePayload, hr, Except.map]
                  intro h
                  injection h with h'
                  exact ih (by rw [hr, h'])

theorem getServiceItems_all_missing (name : List Nat) :
    ∀ items : List Secret,
      (∀ sec ∈ items,
        alookup sec.data (dataServiceKeyPre ++ serviceName name) = none) →
      getServiceItems name items = .ok []
  | [], _ => rfl
  | sec :: rest, h => by
      have hl := h sec (by simp)
      rw [getServiceItems, hl]
      exact getServiceItems_all_missing name rest (fun s hs => h s (by simp [hs]))

theorem getServiceItems_bad_error (name : List Nat) :
    ∀ items : List Secret,
      (∃ sec ∈ items,
        alookup sec.data (dataServiceKeyPre ++ serviceName name) =
          some Payload.malformed) →
      getServiceItems name items = .error (.goError (unmarshalMsg name))
  | [], h => by simp at h
  | sec :: rest, h => by
      cases hl : alookup sec.data (dataServiceKeyPre ++ serviceName name) with
      | none =>
          have hrest : ∃ s ∈ rest,
              alookup s.data (dataServiceKeyPre ++ serviceName name) =
                some Payload.malformed := by
            obtain ⟨s, hs, hbad⟩ := h
            rcases List.mem_cons.mp hs with rfl | hs'
            · rw [hl] at hbad; cases hbad
            · exact ⟨s, hs', hbad⟩
          simpa [getServiceItems, hl] using getServiceItems_bad_error name rest hrest
      | some p =>
          cases p with
          | malformed => simp [getServiceItems, hl, decodePayload]
          | svc v =>
              have hrest : ∃ s ∈ rest,
                  alookup s.data (dataServiceKeyPre ++ serviceName name) =
                    some Payload.malformed := by
                obtain ⟨s, hs, hbad⟩ := h
                rcases List.mem_cons.mp hs with rfl | hs'
                · rw [hl] at hbad
                  injection hbad with hbad'
                  cases hbad'
                · exact ⟨s, hs', hbad⟩
              have hr := getServiceItems_bad_error name rest hrest
              simp [getServiceItems, hl, decodePayload, hr, Except.map]

theorem getServiceItems_total (name : List Nat) :
    ∀ items : List Secret,
      (∀ sec ∈ items,
        alookup sec.data (dataServiceKeyPre ++ serviceName name) ≠
          some Payload.malformed) →
      ∃ l, getServiceItems name items = .ok l ∧
        ∀ sec ∈ items, ∀ v,
          alookup sec.data (dataServiceKeyPre ++ serviceName name) =
            some (Payload.svc v) → v ∈ l
  | [], _ => ⟨[], rfl, by simp⟩
  | sec :: rest, h => by
      obtain ⟨l, hok, hmem⟩ :=
        getServiceItems_total name rest (fun s hs => h s (by simp [hs]))
      cases hl : alookup sec.data (dataServiceKeyPre ++ serviceName name) with
      | none =>
          refine ⟨l, by simp [getServiceItems, hl, hok], ?_⟩
          intro s hs v hv
          rcases List.mem_cons.mp hs with rfl | hs'
          · rw [hl] at hv; cases hv
          · exact hmem s hs' v hv
      | some p =>
          cases p with
          | malformed => exact absurd hl (h sec (by simp))
          | svc v0 =>
              refine ⟨v0 :: l,
                by simp [getServiceItems, hl, decodePayload, hok, Except.map], ?_⟩
              intro s hs v hv
              rcases List.mem_cons.mp hs with rfl | hs'
              · rw [hl] at hv
                injection hv with hv'
                injection hv' with hv''
                rw [← hv'']
                exact List.mem_cons_self _ _
              · exact List.mem_cons_of_mem _ (hmem s hs' v hv)

theorem scanAnns_ok :
    ∀ (anns : List (List Nat × Option Payload)) (acc : List (List Nat)),
      (∀ kv ∈ anns, kv.2 ≠ none) → ∃ l, scanAnns anns acc = .ok l
  | [], acc, _ => ⟨acc, rfl⟩
  | (k, v) :: rest, acc, h => by
      by_cases hk : hasPre dataServiceKeyPre k
      · cases v with
        | none =>
            have hnn := h (k, none) (by simp)
            simp at hnn
        | some p =>
            cases p with
            | malformed =>
                obtain ⟨l, hl⟩ :=
                  scanAnns_ok rest acc (fun kv hkv => h kv (by simp [hkv]))
                exact ⟨l, by simp [scanAnns, hk, decodePayload, hl]⟩
            | svc s =>
                obtain ⟨l, hl⟩ := scanAnns_ok rest (insertName acc s.name)
                  (fun kv hkv => h kv (by simp [hkv]))
                exact ⟨l, by simp [scanAnns, hk, decodePayload, hl]⟩
      · obtain ⟨l, hl⟩ := scanAnns_ok rest acc (fun kv hkv => h kv (by simp [hkv]))
        exact ⟨l, by simp [scanAnns, hk, hl]⟩

theorem listServicesItems_ok :
    ∀ (items : List Secret) (acc : List (List Nat)),
      (∀ sec ∈ items, ∃ m, sec.metadata = some m ∧
        ∀ kv ∈ m.annotations, kv.2 ≠ none) →
      ∃ l, listServicesItems items acc = .ok l
  | [], acc, _ => ⟨acc, rfl⟩
  | sec :: rest, acc, h => by
      obtain ⟨m, hm, hanns⟩ := h sec (by simp)
      obtain ⟨acc2, hacc2⟩ := scanAnns_ok m.annotations acc hanns
      obtain ⟨l, hl⟩ := listServicesItems_ok rest acc2 (fun s hs => h s (by simp [hs]))
      exact ⟨l, by simp [listServicesItems, hm, hacc2, hl]⟩

theorem buildAnnResults_eq_filterMap (act : String)
    (anns : List (List Nat × Option Payload)) :
    buildAnnResults act anns = anns.filterMap (claimResultOf act) := by
  induction anns with
  | nil => rfl
  | cons kv rest ih =>
      obtain ⟨k, v⟩ := kv
      by_cases hk : hasPre dataServiceKeyPre k
      · cases v with
        | none => simp [buildAnnResults, claimResultOf, hk, ih]
        | some p =>
            cases p with
            | svc s => simp [buildAnnResults, claimResultOf, hk, ih, decodePayload]
            | malformed =>
                simp [buildAnnResults, claimResultOf, hk, ih, decodePayload]
      · cases v with
        | none => simp [buildAnnResults, claimResultOf, hk, ih]
        | some p => simp [buildAnnResults, claimResultOf, hk, ih]

/-! ### Concrete fixtures used by witnesses and counterexamples -/

/-- A sample node. -/
def nodeA : Node := { id := "n1", address := "10.0.0.1", port := 8080, metadata := [] }

/-- Service `"a"` (byte 97) with one node. -/
def svcA : Service := { name := [97], version := "", nodes := [nodeA], metadata := [] }

/-- Service `"b"` (byte 98) with one node. -/
def svcB : Service := { name := [98], version := "", nodes := [nodeA], metadata := [] }

/-- The store after registering `svcA` from pod `"pod1"` and `svcB` from
pod `"pod2"`, starting from an empty store. -/
def storeAB : Store := registerStore (registerStore [] svcA "pod1") svcB "pod2"

/-- A secret carrying the per-service selector label for `"a"` but no
data entry at the service key. -/
def secNoEntry : Secret :=
  { metadata := some
      { name := "p1"
      , labels := [(svcSelectorPre ++ serviceName [97], svcSelectorValue)]
      , annotations := [] }
  , data := [] }

/-- A store holding only `secNoEntry`. -/
def stNoEntry : Store := [("p1", secNoEntry)]

/-- A secret whose data entry at the service key for `"a"` is malformed. -/
def secBad : Secret :=
  { metadata := none
  , data := [(dataServiceKeyPre ++ serviceName [97], Payload.malformed)] }

/-! ### The claims -/

/-- C1: for every service with at least one node, `Register` (which
stores the JSON-encoded record under the data key
`"micro.mu/service-" + serviceName(name)` in a secret labeled with the
per-service selector) followed by `GetService` on that service's name
returns a result set containing the registered record itself, for any
starting store whose pre-existing data payloads are well formed. -/
theorem c1_register_getService_roundtrip (s : Service) (podName : String)
    (st : Store) (hn : s.nodes ≠ [])
    (hgood : ∀ sec ∈ st.map Prod.snd, ∀ k : List Nat,
      alookup sec.data k ≠ some Payload.malformed) :
    ∃ l, getService (registerStore st s podName) s.name = .ok l ∧ s ∈ l := by
  have hreg : registerStore st s podName =
      upsert st podName (registerSecret s podName) := by
    simp [registerStore, register, hn, callsOf, applyCalls, applyCall]
  have hrsecmem : registerSecret s podName ∈
      listSecrets (registerStore st s podName) (perServiceSelector s.name) := by
    rw [hreg]
    refine List.mem_filter.mpr ⟨?_, registerSecret_matches s podName⟩
    exact List.mem_map.mpr
      ⟨(podName, registerSecret s podName), upsert_mem_self st podName _, rfl⟩
  have hne : listSecrets (registerStore st s podName)
      (perServiceSelector s.name) ≠ [] := by
    intro h
    rw [h] at hrsecmem
    cases hrsecmem
  have hgood' : ∀ sec ∈ listSecrets (registerStore st s podName)
      (perServiceSelector s.name),
      alookup sec.data (dataServiceKeyPre ++ serviceName s.name) ≠
        some Payload.malformed := by
    intro sec hsec
    have hsec' : sec ∈ (registerStore st s podName).map Prod.snd :=
      (List.mem_filter.mp hsec).1
    rw [hreg] at hsec'
    obtain ⟨⟨k0, s0⟩, hmem0, rfl⟩ := List.mem_map.mp hsec'
    rcases upsert_subset st podName _ _ hmem0 with h0 | h0
    · injection h0 with h0a h0b
      rw [h0b]
      simp [registerSecret, alookup]
    · exact hgood s0 (List.mem_map.mpr ⟨(k0, s0), h0, rfl⟩) _
  obtain ⟨l, hok, hmem⟩ := getServiceItems_total s.name
    (listSecrets (registerStore st s podName) (perServiceSelector s.name)) hgood'
  have hgs : getService (registerStore st s podName) s.name =
      (if listSecrets (registerStore st s podName) (perServiceSelector s.name) = []
        then Except.error RegErr.notFound
        else getServiceItems s.name
          (listSecrets (registerStore st s podName) (perServiceSelector s.name))) :=
    rfl
  refine ⟨l, ?_, ?_⟩
  · rw [hgs, if_neg hne, hok]
  · exact hmem _ hrsecmem s (by simp [registerSecret, alookup])

/-- C1 witness: registering `svcA` into the empty store from `"pod1"`
and reading it back. -/
theorem c1_register_getService_roundtrip_w :
    ∃ l, getService (registerStore [] svcA "pod1") svcA.name = .ok l ∧ svcA ∈ l :=
  c1_register_getService_roundtrip svcA "pod1" [] (by simp [svcA]) (by simp)

/-- C2 (divergence witness): after registering services `"a"` and `"b"`
(one instance each, distinct pods), `ListServices` returns the empty
list, not the two names — `Register` stores the encoded service in the
secret's data while `ListServices` scans the secret's annotations,
which `Register` never sets. -/
theorem c2_listServices_after_register_is_empty :
    listServices storeAB = .ok [] := rfl

/-- C3 (divergence witness): the secret written by `Register` for `svcA`
yields no watch results at all — neither a `create` result on the `Add`
notification nor a `delete` result on the `Delete` notification —
because `buildSecretResults` scans the secret's annotations, which
`Register` never sets. -/
theorem c3_register_secret_yields_no_watch_events :
    handleEvent { type := .added, object := .sec (registerSecret svcA "pod1") } = [] ∧
    handleEvent { type := .deleted, object := .sec (registerSecret svcA "pod1") } = [] :=
  ⟨rfl, rfl⟩

/-- C4 (divergence witness): interleaving two concurrent executions of
`Stop` (for example a caller's `Stop` racing the forwarding goroutine's
own `Stop` after the upstream stream closes) so that both selects take
the `default` branch before either close runs ends with `close`
executed twice and a close-of-closed-channel runtime fault; and `Next`
on the closed channel fails with the `result chan closed` error. -/
theorem c4_concurrent_stop_double_close :
    runSched [true, false, true, false] =
      { ch := .chClosed, closes := 2, fault := true, pc1 := .done, pc2 := .done } ∧
    nextRecv none .chClosed = some (.error (.goError "result chan closed")) :=
  ⟨rfl, rfl⟩

/-- C5: watch decoding matches the spec exactly — `Add` notifications
yield `create` results and `Delete` notifications yield `delete`
results, one per annotation whose key carries the service key prefix,
whose value is non-null and decodes as a service; entries failing any
check (including decode failures) are skipped independently; any other
notification kind (including `Modify`) yields no results. -/
theorem c5_handleEvent_matches_claim (e : WEvent) :
    handleEvent e = claimEvents e := by
  obtain ⟨t, o⟩ := e
  cases o with
  | malformed => cases t <;> rfl
  | sec s =>
      cases hm : s.metadata with
      | none =>
          cases t <;>
            simp [handleEvent, claimEvents, actionOf, buildSecretResults,
              secretAnns, hm]
      | some m =>
          cases t <;>
            simp [handleEvent, claimEvents, actionOf, buildSecretResults,
              secretAnns, hm, buildAnnResults_eq_filterMap]

/-- C6: a data entry at the service key that fails to decode makes the
whole `GetService` call fail with the `could not unmarshal service`
error (no partial result set), while `ListServices` (whose annotation
values are non-null) always succeeds, skipping individual decode
failures. -/
theorem c6_getService_decode_failure_fatal (name : List Nat)
    (items : List Secret)
    (hbad : ∃ sec ∈ items,
      alookup sec.data (dataServiceKeyPre ++ serviceName name) =
        some Payload.malformed)
    (items2 : List Secret)
    (hsane : ∀ sec ∈ items2, ∃ m, sec.metadata = some m ∧
      ∀ kv ∈ m.annotations, kv.2 ≠ none) :
    getServiceItems name items = .error (.goError (unmarshalMsg name)) ∧
    ∃ l, listServicesItems items2 [] = .ok l :=
  ⟨getServiceItems_bad_error name items hbad, listServicesItems_ok items2 [] hsane⟩

/-- C6 witness: one secret with a malformed data entry for `"a"`, and a
secret list whose annotations hold one malformed entry. -/
theorem c6_getService_decode_failure_fatal_w :
    getServiceItems [97] [secBad] = .error (.goError (unmarshalMsg [97])) ∧
    ∃ l, listServicesItems
      [{ metadata := some
          { name := "p1", labels := []
          , annotations := [(dataServiceKeyPre ++ [97], some Payload.malformed)] }
        , data := [] }] [] = .ok l :=
  c6_getService_decode_failure_fatal [97] [secBad] (by decide)
    [{ metadata := some
        { name := "p1", labels := []
        , annotations := [(dataServiceKeyPre ++ [97], some Payload.malformed)] }
      , data := [] }] (by decide)

/-- C7: the sanitizer `serviceName` is a total function, deterministic,
length-preserving, pointwise replaces exactly the bytes outside
`[-A-Za-z0-9_.]` with underscore (byte 95) leaving all others
unchanged, and is idempotent. -/
theorem c7_sanitizer_props (x : List Nat) (i : Nat) (hi : i < x.length) :
    (serviceName x).length = x.length ∧
    (serviceName x).getD i 0 =
      (if isLabelByte (x.getD i 0) then x.getD i 0 else 95) ∧
    serviceName (serviceName x) = serviceName x :=
  ⟨serviceName_length x, serviceName_getD x i hi, serviceName_idem x⟩

/-- C7 witness at the byte string `"a/b"` and index 1 (the slash). -/
theorem c7_sanitizer_props_w :
    (serviceName [97, 47, 98]).length = ([97, 47, 98] : List Nat).length ∧
    (serviceName [97, 47, 98]).getD 1 0 =
      (if isLabelByte (([97, 47, 98] : List Nat).getD 1 0)
        then ([97, 47, 98] : List Nat).getD 1 0 else 95) ∧
    serviceName (serviceName [97, 47, 98]) = serviceName [97, 47, 98] :=
  c7_sanitizer_props [97, 47, 98] 1 (by decide)

/-- C8: registering or deregistering a service with zero nodes fails
with the invalid-argument error and issues no store call. -/
theorem c8_zero_nodes_no_store_call (s : Service) (podName : String)
    (hz : s.nodes = []) :
    register s podName = .error (.goError "you must register at least one node") ∧
    callsOf (register s podName) = [] ∧
    deregister s podName =
      .error (.goError "you must deregister at least one node") ∧
    callsOf (deregister s podName) = [] := by
  simp [register, deregister, callsOf, hz]

/-- C8 witness: the node-less service named `"a"`. -/
theorem c8_zero_nodes_no_store_call_w :
    register { name := [97], version := "", nodes := [], metadata := [] } "pod1" =
      .error (.goError "you must register at least one node") ∧
    callsOf (register { name := [97], version := "", nodes := [], metadata := [] }
      "pod1") = [] ∧
    deregister { name := [97], version := "", nodes := [], metadata := [] } "pod1" =
      .error (.goError "you must deregister at least one node") ∧
    callsOf (deregister { name := [97], version := "", nodes := [], metadata := [] }
      "pod1") = [] :=
  c8_zero_nodes_no_store_call
    { name := [97], version := "", nodes := [], metadata := [] } "pod1" rfl

/-- C9: `GetService` fails with `NotFound` exactly when the per-service
selector matches no secret; and when secrets match but none carries the
data entry at the service key, each is skipped without error and the
call returns the empty result set. -/
theorem c9_getService_notFound_iff (st : Store) (name : List Nat) :
    (getService st name = .error .notFound ↔
      listSecrets st (perServiceSelector name) = []) ∧
    (listSecrets st (perServiceSelector name) ≠ [] →
      (∀ sec ∈ listSecrets st (perServiceSelector name),
        alookup sec.data (dataServiceKeyPre ++ serviceName name) = none) →
      getService st name = .ok []) := by
  have hgs : getService st name =
      (if listSecrets st (perServiceSelector name) = []
        then Except.error RegErr.notFound
        else getServiceItems name (listSecrets st (perServiceSelector name))) := rfl
  by_cases he : listSecrets st (perServiceSelector name) = []
  · refine ⟨⟨fun _ => he, fun _ => by rw [hgs, if_pos he]⟩, fun hne _ => absurd he hne⟩
  · constructor
    · constructor
      · intro h
        rw [hgs, if_neg he] at h
        exact absurd h (getServiceItems_ne_notFound name _)
      · intro h
        exact absurd h he
    · intro _ hall
      rw [hgs, if_neg he]
      exact getServiceItems_all_missing name _ hall

/-- C9 witness: one matching secret without the data entry — the call
returns the empty result set rather than an error. -/
theorem c9_getService_notFound_iff_w :
    getService stNoEntry [97] = .ok [] :=
  (c9_getService_notFound_iff stNoEntry [97]).2 (by decide) (by decide)

/-- C10: `Deregister` ignores its service argument beyond the
non-empty-node check — any two services with nodes produce the
identical single store deletion, keyed by the process's pod name. -/
theorem c10_deregister_keyed_by_host_only (s1 s2 : Service) (podName : String)
    (h1 : s1.nodes ≠ []) (h2 : s2.nodes ≠ []) :
    deregister s1 podName = .ok [.deleteSecret podName] ∧
    deregister s1 podName = deregister s2 podName := by
  simp [deregister, h1, h2]

/-- C10 witness: deregistering `svcA` and `svcB` issue the same
deletion. -/
theorem c10_deregister_keyed_by_host_only_w :
    deregister svcA "pod1" = .ok [.deleteSecret "pod1"] ∧
    deregister svcA "pod1" = deregister svcB "pod1" :=
  c10_deregister_keyed_by_host_only svcA svcB "pod1" (by simp [svcA])
    (by simp [svcB])

end Kreg

